import Mathlib

/-!
Formal model of the nitrogen client-side credential and encrypted-profile
store (the `CryptoUtils` and `UserProfileManager` classes of the
user-profile module), with theorems about the specified properties.

Modelling conventions:

* Machine bytes are `Nat` values kept below 256 explicitly (`% 256`).
* `crypto.getRandomValues` is modelled by an explicit random stream
  (`Rng`): each call consumes the next positions of the stream.  Time
  (`Date.now()`) is an explicit `now : Nat` argument.
* The Web Crypto AES-256-GCM primitive is idealized symbolically: the
  output of `crypto.subtle.encrypt` is an opaque sealed box
  (`GcmSealed`) recording the key, the IV and the plaintext, and
  `crypto.subtle.decrypt` succeeds exactly when the same key and IV are
  presented (the 128-bit authentication tag of real AES-GCM is idealized
  as never colliding).  The byte-level envelope layout
  `salt(16) ‖ iv(12) ‖ ciphertext‖tag` and the offsets used to split it
  are kept concrete (`CByte` lists), so the packing arithmetic of
  `encrypt`/`decrypt` is modelled faithfully; only the AES payload is a
  symbolic element.  The base64 transport encoding of envelopes is a
  bijection and is modelled as the identity on the structured byte list.
* PBKDF2-SHA-256 (used both by `deriveKey` and by `hashPassword`, always
  with 600000 iterations in the source) is idealized as a collision-free
  key-derivation function: a concrete injective encoding of
  (iterations, password, salt) into bytes stands in for the derived
  bits.  Its length differs from the real 256-bit output; no claim
  depends on the length.
* `btoa`/`atob` (`arrayBufferToBase64`/`base64ToArrayBuffer`), used on
  real bytes by the password-hashing path, are modelled as real base64
  with padding.
* `JSON.stringify`/`JSON.parse` are modelled by the `Plain` sum type:
  `Plain.str s` is a raw string, `Plain.profile p` is the JSON text of a
  profile document, `Plain.bundle b` the JSON text of an import bundle.
* `localStorage`, `sessionStorage` and the cookie jar are total maps
  from key strings; `cookiesEnabled` models whether the browser accepts
  cookie writes (always reads succeed).
-/

namespace Nitrogen

/-- Byte lists; each entry is kept below 256 by construction. -/
abbrev Bytes := List Nat

/-- Model of the random source behind `crypto.getRandomValues`: an
infinite stream of bytes and a cursor of how many have been consumed. -/
structure Rng where
  stream : Nat → Nat
  pos : Nat

/-- Draw `n` fresh random bytes (`crypto.getRandomValues(new Uint8Array(n))`). -/
def getRandomValues (n : Nat) (rng : Rng) : Bytes × Rng :=
  ((List.range n).map (fun i => rng.stream (rng.pos + i) % 256),
   ⟨rng.stream, rng.pos + n⟩)

/-! ## Base64 (`btoa` / `atob`) over real bytes -/

/-- The 64-character base64 alphabet. -/
def b64Alphabet : List Char :=
  "ABCDEFGHIJKLMNOPQRSTUVWXYZabcdefghijklmnopqrstuvwxyz0123456789+/".data

/-- Character for a 6-bit group. -/
def sextetChar (n : Nat) : Char := b64Alphabet.getD n 'A'

/-- Inverse alphabet lookup; `none` for characters outside the alphabet. -/
def charSextet (c : Char) : Option Nat := b64Alphabet.findIdx? (· = c)

/-- Base64-encode a byte list, three bytes to four characters, with
trailing `=` padding, as `btoa` does. -/
def b64EncodeBytes : Bytes → List Char
  | [] => []
  | [a] => [sextetChar (a / 4), sextetChar (a % 4 * 16), '=', '=']
  | [a, b] => [sextetChar (a / 4), sextetChar (a % 4 * 16 + b / 16), sextetChar (b % 16 * 4), '=']
  | a :: b :: c :: rest =>
    sextetChar (a / 4) :: sextetChar (a % 4 * 16 + b / 16) ::
      sextetChar (b % 16 * 4 + c / 64) :: sextetChar (c % 64) :: b64EncodeBytes rest

/-- Base64-decode a character list; `none` models `atob` throwing on
malformed input (wrong length, bad character, misplaced padding). -/
def b64DecodeChars : List Char → Option Bytes
  | [] => some []
  | c1 :: c2 :: c3 :: c4 :: rest =>
    match charSextet c1, charSextet c2 with
    | some s1, some s2 =>
      if c3 = '=' then
        if c4 = '=' ∧ rest = [] then some [s1 * 4 + s2 / 16] else none
      else
        match charSextet c3 with
        | some s3 =>
          if c4 = '=' then
            if rest = [] then some [s1 * 4 + s2 / 16, s2 % 16 * 16 + s3 / 4] else none
          else
            match charSextet c4, b64DecodeChars rest with
            | some s4, some rs =>
              some ([s1 * 4 + s2 / 16, s2 % 16 * 16 + s3 / 4, s3 % 4 * 64 + s4] ++ rs)
            | _, _ => none
        | none => none
    | _, _ => none
  | _ => none

namespace CryptoUtils

/-- Source: `arrayBufferToBase64(buffer)` — `btoa` over the bytes. -/
def arrayBufferToBase64 (buffer : Bytes) : String := String.mk (b64EncodeBytes buffer)

/-- Source: `base64ToArrayBuffer(base64)` — `atob`, then bytes; `none`
models the exception `atob` raises on invalid base64. -/
def base64ToArrayBuffer (base64 : String) : Option Bytes := b64DecodeChars base64.data

end CryptoUtils

/-! ## Idealized PBKDF2 -/

/-- Fixed-width (3-byte) encoding of one character code point
(code points are below `0x110000 < 2^24`). -/
def charBytes (c : Char) : Bytes :=
  [c.toNat / 65536 % 256, c.toNat / 256 % 256, c.toNat % 256]

/-- Fixed-width byte encoding of a character list (injective). -/
def encodeChars (cs : List Char) : Bytes := (cs.map charBytes).flatten

/-- Idealized `PBKDF2-SHA-256` derived bits for (password, salt,
iterations): a collision-free stand-in — an injective concrete encoding
of the inputs — in place of the real pseudorandom 256-bit output. -/
def pbkdf2Bits (password : String) (salt : Bytes) (iterations : Nat) : Bytes :=
  [iterations / 16777216 % 256, iterations / 65536 % 256, iterations / 256 % 256,
   iterations % 256] ++ encodeChars password.data ++ salt

/-! ## Data model: profile documents and JSON plaintexts -/

/-- Source: the `settings` part of `defaultProfile`. -/
structure ProfileSettings where
  autoSync : Bool
  syncInterval : Nat
  backupReminders : Bool
  encryptionLevel : String
  storageMode : String
deriving DecidableEq

/-- Source: the `preferences` part of `defaultProfile`; link and
reminder payloads are opaque strings here. -/
structure ProfilePreferences where
  greeting : String
  weatherLocation : String
  searchEngine : String
  links : List String
  theme : String
deriving DecidableEq

/-- Source: the profile document shape of `defaultProfile`.  ISO
timestamp strings are modelled as the `Nat` clock value they were
created from (`none` models `null`). -/
structure Profile where
  username : String
  email : String
  displayName : String
  avatar : String
  settings : ProfileSettings
  preferences : ProfilePreferences
  reminders : List String
  lastSync : Option Nat
  createdAt : Option Nat
  updatedAt : Option Nat
deriving DecidableEq

/-- Source: `this.defaultProfile` of `UserProfileManager`. -/
def defaultProfile : Profile where
  username := ""
  email := ""
  displayName := ""
  avatar := ""
  settings :=
    { autoSync := true
      syncInterval := 300000
      backupReminders := true
      encryptionLevel := "high"
      storageMode := "browser" }
  preferences :=
    { greeting := ""
      weatherLocation := ""
      searchEngine := "startpage"
      links := []
      theme := "ocean" }
  reminders := []
  lastSync := none
  createdAt := none
  updatedAt := none

/-- Export bundle (`{profile, customizations, version}`); only the
fields the manager reads are modelled. -/
structure ImportBundle where
  profile : Profile
  version : String
deriving DecidableEq

/-- Image of `JSON.stringify`: the plaintext strings fed to `encrypt`.
`str` is a raw (non-JSON) string such as a password or a device key;
`profile` and `bundle` are the JSON texts of the two document shapes the
manager serializes.  `JSON.parse` is the partial inverse. -/
inductive Plain where
  | str (s : String)
  | profile (p : Profile)
  | bundle (b : ImportBundle)
deriving DecidableEq

/-! ## Idealized AES-GCM -/

/-- Output of `crypto.subtle.encrypt` with AES-256-GCM: an opaque
`ciphertext‖tag` buffer, idealized as a sealed box recording key, IV and
plaintext. -/
structure GcmSealed where
  key : Bytes
  iv : Bytes
  data : Plain
deriving DecidableEq

/-- Idealized `crypto.subtle.encrypt` (AES-GCM, 128-bit tag). -/
def subtleEncrypt (key : Bytes) (iv : Bytes) (data : Plain) : GcmSealed :=
  ⟨key, iv, data⟩

/-- Idealized `crypto.subtle.decrypt`: the authentication tag verifies
exactly when the presented key and IV are the ones the box was sealed
with; otherwise the operation throws (`none`). -/
def subtleDecrypt (key : Bytes) (iv : Bytes) (s : GcmSealed) : Option Plain :=
  if s.key = key ∧ s.iv = iv then some s.data else none

/-- One position of the combined envelope buffer: a concrete byte (salt
and IV regions) or the opaque AES output (ciphertext‖tag region). -/
inductive CByte where
  | b (v : Nat)
  | sealedData (s : GcmSealed)
deriving DecidableEq

/-- The `salt ‖ iv ‖ ciphertext‖tag` buffer returned by `encrypt`
(its base64 transport encoding is modelled as the identity). -/
abbrev Envelope := List CByte

/-- Errors of the crypto engine: `decryptionFailed` is the
`Failed to decrypt data - invalid password or corrupted data` throw. -/
inductive CryptoError where
  | decryptionFailed
deriving DecidableEq

/-- Lift concrete bytes into envelope positions. -/
def bytesToC (bs : Bytes) : Envelope := bs.map CByte.b

/-- Read back a run of concrete bytes; fails on the sealed element. -/
def cBytesOnly : Envelope → Option Bytes
  | [] => some []
  | CByte.b v :: rest => (cBytesOnly rest).map (v :: ·)
  | CByte.sealedData _ :: _ => none

namespace CryptoUtils

/-- Source: `this.keyLength = 256`. -/
def keyLength : Nat := 256

/-- Source: `this.ivLength = 12`. -/
def ivLength : Nat := 12

/-- Source: `this.tagLength = 128`. -/
def tagLength : Nat := 128

/-- Source: `generateSalt()` — 16 random bytes. -/
def generateSalt (rng : Rng) : Bytes × Rng := getRandomValues 16 rng

/-- Source: `generateIV()` — `ivLength` random bytes. -/
def generateIV (rng : Rng) : Bytes × Rng := getRandomValues ivLength rng

/-- Source: `deriveKey(password, salt)` — PBKDF2 with 600000 iterations,
SHA-256, producing the AES key (idealized; see `pbkdf2Bits`). -/
def deriveKey (password : String) (salt : Bytes) : Bytes :=
  pbkdf2Bits password salt 600000

/-- Source: `encrypt(plaintext, password)` — fresh salt and IV, derived
key, AES-GCM seal, then `salt ‖ iv ‖ ciphertext‖tag` (base64 transport
modelled as identity).  The `TextEncoder` step is the identity on the
`Plain` plaintext. -/
def encrypt (plaintext : Plain) (password : String) (rng : Rng) : Envelope × Rng :=
  let saltR := generateSalt rng
  let ivR := generateIV saltR.2
  let key := deriveKey password saltR.1
  let encrypted := subtleEncrypt key ivR.1 plaintext
  (bytesToC saltR.1 ++ bytesToC ivR.1 ++ [CByte.sealedData encrypted], ivR.2)

/-- Source: `decrypt(encryptedData, password)` — split the buffer at
offsets 16 and 16+ivLength (`slice(0,16)`, `slice(16,28)`,
`slice(28)`), re-derive the key, verify and open.  Every failure inside
the `try` block (bad buffer shape or tag failure) is rethrown as the
single `decryptionFailed` error. -/
def decrypt (encryptedData : Envelope) (password : String) : Except CryptoError Plain :=
  let salt := encryptedData.take 16
  let iv := (encryptedData.drop 16).take ivLength
  let encrypted := encryptedData.drop (16 + ivLength)
  match cBytesOnly salt, cBytesOnly iv, encrypted with
  | some saltB, some ivB, [CByte.sealedData s] =>
    match subtleDecrypt (deriveKey password saltB) ivB s with
    | some pt => Except.ok pt
    | none => Except.error CryptoError.decryptionFailed
  | _, _, _ => Except.error CryptoError.decryptionFailed

/-- Source: `hashPassword(password, salt = null)` — PBKDF2 (600000
iterations) derived bits; generates a fresh salt when none is given;
returns base64 hash and base64 salt. -/
def hashPassword (password : String) (saltArg : Option Bytes) (rng : Rng) :
    (String × String) × Rng :=
  let saltR : Bytes × Rng :=
    match saltArg with
    | some s => (s, rng)
    | none => generateSalt rng
  let hash := pbkdf2Bits password saltR.1 600000
  ((arrayBufferToBase64 hash, arrayBufferToBase64 saltR.1), saltR.2)

end CryptoUtils

/-! ## String splitting (JS `String.prototype.split`) -/

/-- Split a character list at every occurrence of `sep` (the JS
`split` semantics: `n` separators give `n+1` groups). -/
def splitChar (sep : Char) : List Char → List (List Char)
  | [] => [[]]
  | c :: rest =>
    if c = sep then [] :: splitChar sep rest
    else
      match splitChar sep rest with
      | [] => [[c]]
      | g :: gs => (c :: g) :: gs

namespace CryptoUtils

/-- Source: `verifyPassword(password, hashWithSalt)` — split on `:`,
base64-decode the salt, recompute the hash with that salt, compare.
Any failure (too few parts, invalid base64) is caught and gives
`false`. -/
def verifyPassword (password : String) (hashWithSalt : String) : Bool :=
  match splitChar ':' hashWithSalt.data with
  | storedHash :: storedSalt :: _ =>
    match base64ToArrayBuffer (String.mk storedSalt) with
    | some salt =>
      decide ((hashPassword password (some salt) ⟨fun _ => 0, 0⟩).1.1 = String.mk storedHash)
    | none => false
  | _ => false

end CryptoUtils

/-! ## Browser storage state -/

/-- A value held in `localStorage`/`sessionStorage`: an encrypted
envelope (base64 text), the `user_session` JSON, a `login_attempts_*`
JSON, or a plain string (such as the staged import key). -/
inductive StoredVal where
  | env (e : Envelope)
  | session (username : String) (loginTime : Nat)
  | attempts (count : Nat) (lockoutUntil : Nat)
  | str (s : String)
deriving DecidableEq

/-- The browser-visible state the manager operates on: the two
key-value stores, the cookie jar, whether the browser accepts cookie
writes, and the `UserProfileManager` instance fields used by the
modelled methods (`this._deviceKey`, `this.currentUser`,
`this.isLoggedIn`, `this.syncEnabled`). -/
structure State where
  localStorage : String → Option StoredVal
  sessionStorage : String → Option StoredVal
  cookies : String → Option String
  cookiesEnabled : Bool
  memDeviceKey : Option String
  currentUser : Option Profile
  isLoggedIn : Bool
  syncEnabled : Bool

/-- An empty browser state with cookies enabled. -/
def State.empty : State where
  localStorage := fun _ => none
  sessionStorage := fun _ => none
  cookies := fun _ => none
  cookiesEnabled := true
  memDeviceKey := none
  currentUser := none
  isLoggedIn := false
  syncEnabled := false

/-- Store write: `localStorage.setItem(key, value)`. -/
def setLocal (st : State) (key : String) (v : StoredVal) : State :=
  { st with localStorage := fun q => if q = key then some v else st.localStorage q }

/-- Store delete: `localStorage.removeItem(key)`. -/
def removeLocal (st : State) (key : String) : State :=
  { st with localStorage := fun q => if q = key then none else st.localStorage q }

/-- Store write: `sessionStorage.setItem(key, value)`. -/
def setSession (st : State) (key : String) (v : StoredVal) : State :=
  { st with sessionStorage := fun q => if q = key then some v else st.sessionStorage q }

/-- Store delete: `sessionStorage.removeItem(key)`. -/
def removeSession (st : State) (key : String) : State :=
  { st with sessionStorage := fun q => if q = key then none else st.sessionStorage q }

/-- Cookie delete (an expired `document.cookie` write; like any cookie
write it only takes effect when the browser accepts cookies). -/
def deleteCookieJar (st : State) (name : String) : State :=
  if st.cookiesEnabled then
    { st with cookies := fun q => if q = name then none else st.cookies q }
  else st

namespace CryptoUtils

/-- Source: `setEncryptedLocalStorage(key, data, password)` —
`JSON.stringify`, `encrypt`, `localStorage.setItem`. -/
def setEncryptedLocalStorage (st : State) (key : String) (data : Plain) (password : String)
    (rng : Rng) : State × Rng :=
  let encR := encrypt data password rng
  (setLocal st key (StoredVal.env encR.1), encR.2)

/-- Source: `getEncryptedLocalStorage(key, password)` — returns `null`
when the key is absent; decrypts and `JSON.parse`s otherwise; any error
is caught and turned into `null`. -/
def getEncryptedLocalStorage (st : State) (key : String) (password : String) : Option Plain :=
  match st.localStorage key with
  | none => none
  | some (StoredVal.env encrypted) =>
    match decrypt encrypted password with
    | Except.ok decrypted => some decrypted
    | Except.error _ => none
  | some _ => none

/-- Source: `deleteCookie(name)`. -/
def deleteCookie (st : State) (name : String) : State := deleteCookieJar st name

end CryptoUtils

namespace UserProfileManager

/-- Source: `getCookie(name)` — parse `document.cookie`; modelled as a
jar lookup. -/
def getCookie (st : State) (name : String) : Option String := st.cookies name

/-- Source: `setCookie(name, value, days)` — a `document.cookie` write
with expiry and SameSite/Secure flags; the jar only records the value,
and the write is dropped when the browser rejects cookies. -/
def setCookie (st : State) (name : String) (value : String) (days : Nat) : State :=
  if st.cookiesEnabled then
    { st with cookies := fun q => if q = name then some value else st.cookies q }
  else st

/-- Hex digit characters. -/
def hexDigit (n : Nat) : Char := "0123456789abcdef".data.getD n '0'

/-- Source: `b.toString(16).padStart(2, '0')` for a byte. -/
def byteHex (b : Nat) : List Char := [hexDigit (b / 16), hexDigit (b % 16)]

/-- Source: the hex-join of 32 random bytes in `getDeviceEncryptionKey`. -/
def bytesToHex (bs : Bytes) : String := String.mk (bs.map byteHex).flatten

/-- Source: `getDeviceEncryptionKey()` — use the `device_enc_key`
cookie when present; otherwise generate 32 random bytes, hex-encode,
store for 3650 days, read back, and on read-back failure record the key
in `this._deviceKey` (in-memory fallback) — note the fallback field is
assigned but no later call reads it. -/
def getDeviceEncryptionKey (st : State) (rng : Rng) : String × State × Rng :=
  match getCookie st "device_enc_key" with
  | some existingKey => (existingKey, st, rng)
  | none =>
    let bytesR := getRandomValues 32 rng
    let randomKey := bytesToHex bytesR.1
    let st1 := setCookie st "device_enc_key" randomKey 3650
    match getCookie st1 "device_enc_key" with
    | none => (randomKey, { st1 with memDeviceKey := some randomKey }, bytesR.2)
    | some _ => (randomKey, st1, bytesR.2)

/-- Source: `checkUserExists(username)` — the current `profile_` key or
one of the legacy keys (`nitrogenProfile_`, `profile_..._backup`). -/
def checkUserExists (st : State) (username : String) : Bool :=
  (st.localStorage ("profile_" ++ username)).isSome ||
  (st.localStorage ("nitrogenProfile_" ++ username)).isSome ||
  (st.localStorage ("profile_" ++ username ++ "_backup")).isSome

/-- Rate-limit record `{count, lockoutUntil}`. -/
structure Attempts where
  count : Nat
  lockoutUntil : Nat
deriving DecidableEq

/-- Source: `getLoginAttempts(username)` — `{count: 0, lockoutUntil: 0}`
when the key is absent, the parsed JSON otherwise. -/
def getLoginAttempts (st : State) (username : String) : Attempts :=
  match st.localStorage ("login_attempts_" ++ username) with
  | some (StoredVal.attempts c l) => ⟨c, l⟩
  | _ => ⟨0, 0⟩

/-- Source: `recordFailedAttempt(username)` — increment the count; from
the 5th failure on, set `lockoutUntil = now + (count - 4) * 5` minutes. -/
def recordFailedAttempt (st : State) (username : String) (now : Nat) : State :=
  let attempts := getLoginAttempts st username
  let count := attempts.count + 1
  let lockoutUntil :=
    if count ≥ 5 then now + (count - 4) * 5 * 60 * 1000
    else attempts.lockoutUntil
  setLocal st ("login_attempts_" ++ username) (StoredVal.attempts count lockoutUntil)

/-- Source: `clearLoginAttempts(username)`. -/
def clearLoginAttempts (st : State) (username : String) : State :=
  removeLocal st ("login_attempts_" ++ username)

/-- Source: `saveUserProfile(username, profile, password)` — write the
encrypted profile envelope, then re-encrypt the password under the
device key into `user_password_enc`, then write the `user_session`
marker. -/
def saveUserProfile (st : State) (username : String) (profile : Profile) (password : String)
    (now : Nat) (rng : Rng) : State × Rng :=
  let profileKey := "profile_" ++ username
  let w1 := CryptoUtils.setEncryptedLocalStorage st profileKey
    (Plain.profile profile) password rng
  let dk := getDeviceEncryptionKey w1.1 w1.2
  let encPw := CryptoUtils.encrypt (Plain.str password) dk.1 dk.2.2
  let st3 := setLocal dk.2.1 "user_password_enc" (StoredVal.env encPw.1)
  let st4 := setLocal st3 "user_session" (StoredVal.session username now)
  (st4, encPw.2)

/-- Source: `loadUserProfile(username, password)` — read through
`getEncryptedLocalStorage`; the parsed JSON is the profile document. -/
def loadUserProfile (st : State) (username : String) (password : String) : Option Profile :=
  match CryptoUtils.getEncryptedLocalStorage st ("profile_" ++ username) password with
  | some (Plain.profile p) => some p
  | _ => none

/-- Source: `saveLoginCredentials(username, passwordHash, password)` —
the hash argument is accepted but not stored; the raw password is
encrypted under the device key into `user_password_enc` and the
`user_session` marker is written. -/
def saveLoginCredentials (st : State) (username : String) (passwordHash : String)
    (password : String) (now : Nat) (rng : Rng) : State × Rng :=
  let _ := passwordHash
  let dk := getDeviceEncryptionKey st rng
  let encPw := CryptoUtils.encrypt (Plain.str password) dk.1 dk.2.2
  let st2 := setLocal dk.2.1 "user_password_enc" (StoredVal.env encPw.1)
  let st3 := setLocal st2 "user_session" (StoredVal.session username now)
  (st3, encPw.2)

/-- Source: the one-argument `cleanupOldStorage(username)` (the later
definition in the class body, which shadows the earlier two-argument
one) — removes legacy keys from both stores and expires the matching
cookies. -/
def cleanupOldStorage (st : State) (username : String) : State :=
  let keys := ["nitrogenProfile_" ++ username, "profile_" ++ username ++ "_backup",
    "sync_" ++ username, "user_login"]
  keys.foldl (fun acc key =>
    deleteCookieJar (removeSession (removeLocal acc key) key) key) st

/-- Source: `cleanupUserData(username)` — remove every storage key of
the username (used by the force-overwrite path). -/
def cleanupUserData (st : State) (username : String) : State :=
  let keys := ["profile_" ++ username, "profile_" ++ username ++ "_backup",
    "nitrogenProfile_" ++ username, "sync_" ++ username]
  keys.foldl (fun acc key => deleteCookieJar (removeLocal acc key) key) st

/-- Source: `isValidEmail(email)` — the regex
`^[^\s@]+@[^\s@]+\.[^\s@]+$`: exactly one `@`, a nonempty local part, a
domain containing a dot that is neither its first nor its last
character, and no whitespace anywhere. -/
def isValidEmail (email : String) : Bool :=
  match splitChar '@' email.data with
  | [localPart, domain] =>
    decide (localPart ≠ []) && localPart.all (fun c => !c.isWhitespace) &&
    decide (domain ≠ []) && domain.all (fun c => !c.isWhitespace) &&
    ((domain.drop 1).dropLast.contains '.')
  | _ => false

/-- Source: `generateAvatarUrl(username)` — a data URL embedding a
base64 SVG with a colour picked by username length and the uppercased
initial (the whitespace of the source template literal is abbreviated). -/
def generateAvatarUrl (username : String) : String :=
  let colors := ["e74c3c", "3498db", "2ecc71", "f39c12", "9b59b6", "1abc9c"]
  let colorIndex := username.length % colors.length
  let initial := (username.data.getD 0 ' ').toUpper
  let svg := "<svg><circle fill=#" ++ colors.getD colorIndex "" ++ "/><text>"
    ++ String.mk [initial] ++ "</text></svg>"
  "data:image/svg+xml;base64," ++ CryptoUtils.arrayBufferToBase64 (svg.data.map Char.toNat)

/-- Registration errors (the `Error` messages thrown by
`registerUser`).  `usernameTaken` is the
`Username already exists and is accessible` throw and
`usernameCorrupted` is the `USERNAME_CORRUPTED` throw. -/
inductive RegError where
  | usernameTooShort
  | passwordTooShort
  | invalidEmail
  | usernameTaken
  | usernameCorrupted
deriving DecidableEq

/-- The `{success, user?, error?}` result object of `registerUser`. -/
structure RegResult where
  success : Bool
  user : Option Profile
  error : Option RegError
deriving DecidableEq

/-- Source: `registerUser(username, password, email, displayName,
forceOverwrite = false)`.  The existing-user branch reproduces the
source control flow exactly: the trial `loadUserProfile` and the
`usernameTaken` throw sit inside one `try` block whose `catch` rethrows
`USERNAME_CORRUPTED`, and `loadUserProfile` itself never throws (it
returns `null` on decryption failure). -/
def registerUser (st : State) (username password email displayName : String)
    (forceOverwrite : Bool) (now : Nat) (rng : Rng) : RegResult × State × Rng :=
  if username.length < 3 then
    (⟨false, none, some RegError.usernameTooShort⟩, st, rng)
  else if password.length < 8 then
    (⟨false, none, some RegError.passwordTooShort⟩, st, rng)
  else if ¬ isValidEmail email then
    (⟨false, none, some RegError.invalidEmail⟩, st, rng)
  else
    let existingUser := checkUserExists st username
    let trial : Except RegError Unit :=
      if existingUser ∧ ¬ forceOverwrite then
        match
          (match loadUserProfile st username password with
           | some _ => Except.error RegError.usernameTaken
           | none => Except.ok ()) with
        | Except.error _ => Except.error RegError.usernameCorrupted
        | Except.ok () => Except.ok ()
      else Except.ok ()
    match trial with
    | Except.error e => (⟨false, none, some e⟩, st, rng)
    | Except.ok () =>
      let st1 := if forceOverwrite then cleanupUserData st username else st
      let hashR := CryptoUtils.hashPassword password none rng
      let passwordHash := hashR.1.1 ++ ":" ++ hashR.1.2
      let newProfile : Profile :=
        { defaultProfile with
          username := username
          email := email
          displayName := if displayName = "" then username else displayName
          avatar := generateAvatarUrl username
          createdAt := some now
          updatedAt := some now }
      let w2 := saveUserProfile st1 username newProfile password now hashR.2
      let w3 := saveLoginCredentials w2.1 username passwordHash password now w2.2
      let st4 := { w3.1 with
        currentUser := some newProfile
        isLoggedIn := true
        syncEnabled := newProfile.settings.autoSync }
      (⟨true, some newProfile, none⟩, st4, w3.2)

/-- Source: `completeImport(importData, password)` — save the bundled
profile through the standard save function. -/
def completeImport (st : State) (importData : ImportBundle) (password : String) (now : Nat)
    (rng : Rng) : State × Rng :=
  saveUserProfile st importData.profile.username importData.profile password now rng

/-- Login errors (the `Error` messages thrown by `loginUser`).
`rateLimited` carries `Math.ceil(timeLeft / 60000)` minutes. -/
inductive LoginError where
  | rateLimited (minutes : Nat)
  | missingCredentials
  | userNotFound
  | invalidPassword
deriving DecidableEq

/-- The `{success, user?, error?}` result object of `loginUser`. -/
structure LoginResult where
  success : Bool
  user : Option Profile
  error : Option LoginError
deriving DecidableEq

/-- Source: the pending-import block at the top of `loginUser`: when
both `pendingImport_enc` and `pendingImport_key` are staged, decrypt
and parse the bundle; on a username match complete the import and clear
the staging keys; on any decrypt/parse failure clear the staging keys;
on a username mismatch leave them in place. -/
def loginPendingImport (st : State) (username password : String) (now : Nat) (rng : Rng) :
    State × Rng :=
  match st.sessionStorage "pendingImport_enc", st.sessionStorage "pendingImport_key" with
  | some (StoredVal.env encryptedImport), some (StoredVal.str tempKey) =>
    (match CryptoUtils.decrypt encryptedImport tempKey with
     | Except.ok (Plain.bundle importData) =>
       if importData.profile.username = username then
         let ci := completeImport st importData password now rng
         (removeSession (removeSession ci.1 "pendingImport_enc") "pendingImport_key", ci.2)
       else (st, rng)
     | Except.ok _ =>
       (removeSession (removeSession st "pendingImport_enc") "pendingImport_key", rng)
     | Except.error _ =>
       (removeSession (removeSession st "pendingImport_enc") "pendingImport_key", rng))
  | some _, some _ =>
    (removeSession (removeSession st "pendingImport_enc") "pendingImport_key", rng)
  | _, _ => (st, rng)

/-- Source: the body of `loginUser` after the pending-import block —
the rate-limit gate (before any credential work), input validation,
existence check, profile load, and on success: clear attempts, clean up
legacy keys, refresh the stored credentials, set the instance fields. -/
def loginAfterImport (st : State) (username password : String) (now : Nat)
    (rng : Rng) : LoginResult × State × Rng :=
  let attempts := getLoginAttempts st username
  if attempts.count ≥ 5 ∧ attempts.lockoutUntil - now > 0 then
    let minutes := (attempts.lockoutUntil - now + 59999) / 60000
    (⟨false, none, some (LoginError.rateLimited minutes)⟩, st, rng)
  else
    let st := if attempts.count ≥ 5 then clearLoginAttempts st username else st
    if username = "" ∨ password = "" then
      (⟨false, none, some LoginError.missingCredentials⟩, recordFailedAttempt st username now, rng)
    else if ¬ checkUserExists st username then
      (⟨false, none, some LoginError.userNotFound⟩, recordFailedAttempt st username now, rng)
    else
      match loadUserProfile st username password with
      | none =>
        (⟨false, none, some LoginError.invalidPassword⟩, recordFailedAttempt st username now, rng)
      | some userProfile =>
        let st := clearLoginAttempts st username
        let st := cleanupOldStorage st username
        let hashR := CryptoUtils.hashPassword password none rng
        let passwordHash := hashR.1.1 ++ ":" ++ hashR.1.2
        let w := saveLoginCredentials st username passwordHash password now hashR.2
        let stFinal := { w.1 with
          currentUser := some userProfile
          isLoggedIn := true
          syncEnabled := userProfile.settings.autoSync }
        (⟨true, some userProfile, none⟩, stFinal, w.2)

/-- Source: `loginUser(username, password, rememberMe = true)` — the
pending-import block followed by the main flow. -/
def loginUser (st : State) (username password : String) (rememberMe : Bool) (now : Nat)
    (rng : Rng) : LoginResult × State × Rng :=
  let _ := rememberMe
  let pending := loginPendingImport st username password now rng
  loginAfterImport pending.1 username password now pending.2

end UserProfileManager

/-! ## Lemmas: random bytes -/

theorem getRandomValues_length (n : Nat) (rng : Rng) :
    (getRandomValues n rng).1.length = n := by
  simp [getRandomValues]

theorem getRandomValues_lt (n : Nat) (rng : Rng) :
    ∀ x ∈ (getRandomValues n rng).1, x < 256 := by
  intro x hx
  simp only [getRandomValues, List.mem_map] at hx
  obtain ⟨i, -, rfl⟩ := hx
  exact Nat.mod_lt _ (by omega)

theorem getRandomValues_pos (n : Nat) (rng : Rng) :
    (getRandomValues n rng).2.pos = rng.pos + n := rfl

/-! ## Lemmas: base64 -/

theorem charSextet_sextetChar : ∀ n, n < 64 → charSextet (sextetChar n) = some n := by decide

theorem b64Alphabet_length : b64Alphabet.length = 64 := by decide

theorem sextetChar_ne_eq (n : Nat) : (sextetChar n = '=') = False := by
  by_cases h : n < 64
  · exact eq_false ((by decide : ∀ m, m < 64 → ¬ sextetChar m = '=') n h)
  · rw [sextetChar, List.getD_eq_default _ _ (by rw [b64Alphabet_length]; omega)]
    decide

theorem sextetChar_ne_colon (n : Nat) : sextetChar n ≠ ':' := by
  by_cases h : n < 64
  · exact (by decide : ∀ m, m < 64 → ¬ sextetChar m = ':') n h
  · rw [sextetChar, List.getD_eq_default _ _ (by rw [b64Alphabet_length]; omega)]
    decide

theorem b64_roundtrip : ∀ bs : Bytes, (∀ x ∈ bs, x < 256) →
    b64DecodeChars (b64EncodeBytes bs) = some bs
  | [], _ => rfl
  | [a], h => by
    have ha : a < 256 := h a (by simp)
    simp only [b64EncodeBytes, b64DecodeChars,
      charSextet_sextetChar _ (by omega : a / 4 < 64),
      charSextet_sextetChar _ (by omega : a % 4 * 16 < 64),
      if_pos rfl, and_self, ite_true]
    congr 2
    omega
  | [a, b], h => by
    have ha : a < 256 := h a (by simp)
    have hb : b < 256 := h b (by simp)
    simp only [b64EncodeBytes, b64DecodeChars,
      charSextet_sextetChar _ (by omega : a / 4 < 64),
      charSextet_sextetChar _ (by omega : a % 4 * 16 + b / 16 < 64),
      charSextet_sextetChar _ (by omega : b % 16 * 4 < 64),
      sextetChar_ne_eq, if_false, if_true, and_self, ite_true,
      Option.some.injEq, List.cons.injEq, and_true]
    omega
  | a :: b :: c :: rest, h => by
    have ha : a < 256 := h a (by simp)
    have hb : b < 256 := h b (by simp)
    have hc : c < 256 := h c (by simp)
    have ih := b64_roundtrip rest (fun x hx => h x (by simp [hx]))
    simp only [b64EncodeBytes, b64DecodeChars,
      charSextet_sextetChar _ (by omega : a / 4 < 64),
      charSextet_sextetChar _ (by omega : a % 4 * 16 + b / 16 < 64),
      charSextet_sextetChar _ (by omega : b % 16 * 4 + c / 64 < 64),
      charSextet_sextetChar _ (by omega : c % 64 < 64),
      sextetChar_ne_eq, if_false, ih, Option.some.injEq, List.cons.injEq,
      List.cons_append, List.nil_append, and_true]
    omega

theorem b64EncodeBytes_inj (bs1 bs2 : Bytes) (h1 : ∀ x ∈ bs1, x < 256)
    (h2 : ∀ x ∈ bs2, x < 256) (h : b64EncodeBytes bs1 = b64EncodeBytes bs2) : bs1 = bs2 := by
  have e1 := b64_roundtrip bs1 h1
  have e2 := b64_roundtrip bs2 h2
  rw [h, e2] at e1
  exact (Option.some.inj e1).symm

theorem b64EncodeBytes_no_colon : ∀ bs : Bytes, ∀ c ∈ b64EncodeBytes bs, c ≠ ':'
  | [], _, hc => by simp [b64EncodeBytes] at hc
  | [a], c, hc => by
    simp only [b64EncodeBytes, List.mem_cons, List.mem_singleton, List.not_mem_nil,
      or_false] at hc
    rcases hc with rfl | rfl | rfl | rfl <;> first | exact sextetChar_ne_colon _ | decide
  | [a, b], c, hc => by
    simp only [b64EncodeBytes, List.mem_cons, List.mem_singleton, List.not_mem_nil,
      or_false] at hc
    rcases hc with rfl | rfl | rfl | rfl <;> first | exact sextetChar_ne_colon _ | decide
  | a :: b :: d :: rest, c, hc => by
    simp only [b64EncodeBytes, List.mem_cons] at hc
    rcases hc with rfl | rfl | rfl | rfl | hm
    · exact sextetChar_ne_colon _
    · exact sextetChar_ne_colon _
    · exact sextetChar_ne_colon _
    · exact sextetChar_ne_colon _
    · exact b64EncodeBytes_no_colon rest c hm

/-! ## Lemmas: splitChar -/

theorem splitChar_of_not_mem (sep : Char) : ∀ l : List Char, (∀ c ∈ l, c ≠ sep) →
    splitChar sep l = [l]
  | [], _ => rfl
  | c :: rest, h => by
    have hc : c ≠ sep := h c (by simp)
    have ih := splitChar_of_not_mem sep rest (fun x hx => h x (by simp [hx]))
    simp [splitChar, hc, ih]

theorem splitChar_append (sep : Char) : ∀ (A B : List Char), (∀ c ∈ A, c ≠ sep) →
    splitChar sep (A ++ sep :: B) = A :: splitChar sep B
  | [], B, _ => by simp [splitChar]
  | c :: A, B, h => by
    have hc : c ≠ sep := h c (by simp)
    have ih := splitChar_append sep A B (fun x hx => h x (by simp [hx]))
    simp only [List.cons_append, splitChar, if_neg hc, List.append_eq, ih]

/-! ## Lemmas: idealized PBKDF2 -/

theorem charBytes_lt (c : Char) : ∀ x ∈ charBytes c, x < 256 := by
  intro x hx
  simp only [charBytes, List.mem_cons, List.not_mem_nil, or_false] at hx
  rcases hx with rfl | rfl | rfl <;> exact Nat.mod_lt _ (by omega)

theorem char_toNat_lt (c : Char) : c.toNat < 1114112 := by
  have h := c.valid
  simp only [Char.toNat]
  rcases h with h | ⟨h1, h2⟩ <;> omega

theorem char_toNat_inj (c d : Char) (h : c.toNat = d.toNat) : c = d := by
  have := congrArg Char.ofNat h
  rwa [Char.ofNat_toNat, Char.ofNat_toNat] at this

theorem charBytes_inj (c d : Char) (h : charBytes c = charBytes d) : c = d := by
  simp only [charBytes, List.cons.injEq, and_true] at h
  obtain ⟨h1, h2, h3⟩ := h
  have hc := char_toNat_lt c
  have hd := char_toNat_lt d
  exact char_toNat_inj c d (by omega)

theorem encodeChars_lt : ∀ cs : List Char, ∀ x ∈ encodeChars cs, x < 256 := by
  intro cs x hx
  simp only [encodeChars, List.mem_flatten, List.mem_map] at hx
  obtain ⟨l, ⟨c, -, rfl⟩, hxl⟩ := hx
  exact charBytes_lt c x hxl

theorem encodeChars_cons (c : Char) (cs : List Char) :
    encodeChars (c :: cs) = charBytes c ++ encodeChars cs := by
  simp [encodeChars]

theorem encodeChars_inj : ∀ l1 l2 : List Char, encodeChars l1 = encodeChars l2 → l1 = l2
  | [], [], _ => rfl
  | [], c :: r, h => by
    rw [encodeChars_cons] at h
    simp [encodeChars, charBytes] at h
  | c :: r, [], h => by
    rw [encodeChars_cons] at h
    simp [encodeChars, charBytes] at h
  | c :: r, d :: s, h => by
    rw [encodeChars_cons, encodeChars_cons] at h
    simp only [charBytes, List.cons_append, List.cons.injEq] at h
    obtain ⟨h1, h2, h3, h4⟩ := h
    have hc := char_toNat_lt c
    have hd := char_toNat_lt d
    have : c = d := char_toNat_inj c d (by omega)
    exact this ▸ congrArg (c :: ·) (encodeChars_inj r s h4)

theorem pbkdf2Bits_lt (password : String) (salt : Bytes) (iterations : Nat)
    (hs : ∀ x ∈ salt, x < 256) : ∀ x ∈ pbkdf2Bits password salt iterations, x < 256 := by
  intro x hx
  simp only [pbkdf2Bits, List.append_assoc, List.mem_append, List.mem_cons,
    List.not_mem_nil, or_false] at hx
  rcases hx with ((rfl | rfl | rfl | rfl) | hx | hx)
  · exact Nat.mod_lt _ (by omega)
  · exact Nat.mod_lt _ (by omega)
  · exact Nat.mod_lt _ (by omega)
  · exact Nat.mod_lt _ (by omega)
  · exact encodeChars_lt _ x hx
  · exact hs x hx

theorem pbkdf2Bits_inj (p1 p2 : String) (salt : Bytes) (iterations : Nat)
    (h : pbkdf2Bits p1 salt iterations = pbkdf2Bits p2 salt iterations) : p1 = p2 := by
  simp only [pbkdf2Bits, List.cons_append, List.nil_append, List.cons.injEq, true_and] at h
  have h2 := List.append_cancel_right h
  have := encodeChars_inj _ _ h2
  calc p1 = String.mk p1.data := rfl
    _ = String.mk p2.data := congrArg String.mk this
    _ = p2 := rfl

theorem deriveKey_inj (p1 p2 : String) (salt : Bytes)
    (h : CryptoUtils.deriveKey p1 salt = CryptoUtils.deriveKey p2 salt) : p1 = p2 :=
  pbkdf2Bits_inj p1 p2 salt 600000 h

/-! ## Lemmas: envelope packing and the AEAD roundtrip -/

theorem cBytesOnly_bytesToC : ∀ bs : Bytes, cBytesOnly (bytesToC bs) = some bs
  | [] => rfl
  | v :: rest => by
    have ih := cBytesOnly_bytesToC rest
    simp only [bytesToC] at ih ⊢
    simp [cBytesOnly, ih]

theorem bytesToC_length (bs : Bytes) : (bytesToC bs).length = bs.length := by
  simp [bytesToC]

theorem bytesToC_inj (b1 b2 : Bytes) (h : bytesToC b1 = bytesToC b2) : b1 = b2 := by
  have e1 := cBytesOnly_bytesToC b1
  rw [h, cBytesOnly_bytesToC b2] at e1
  exact (Option.some.inj e1).symm

theorem encrypt_shape (pt : Plain) (password : String) (rng : Rng) :
    (CryptoUtils.encrypt pt password rng).1 =
      bytesToC (CryptoUtils.generateSalt rng).1 ++
      bytesToC (CryptoUtils.generateIV (CryptoUtils.generateSalt rng).2).1 ++
      [CByte.sealedData (subtleEncrypt
        (CryptoUtils.deriveKey password (CryptoUtils.generateSalt rng).1)
        (CryptoUtils.generateIV (CryptoUtils.generateSalt rng).2).1 pt)] := rfl

theorem decrypt_of_encrypt_parts (salt iv : Bytes) (s : GcmSealed) (password : String)
    (hsalt : salt.length = 16) (hiv : iv.length = 12) :
    CryptoUtils.decrypt (bytesToC salt ++ bytesToC iv ++ [CByte.sealedData s]) password =
      (match subtleDecrypt (CryptoUtils.deriveKey password salt) iv s with
       | some pt => Except.ok pt
       | none => Except.error CryptoError.decryptionFailed) := by
  have hs16 : (bytesToC salt).length = 16 := by rw [bytesToC_length, hsalt]
  have hi12 : (bytesToC iv).length = 12 := by rw [bytesToC_length, hiv]
  have hsi : (bytesToC salt ++ bytesToC iv).length = 28 := by
    rw [List.length_append, hs16, hi12]
  simp only [CryptoUtils.decrypt]
  rw [List.append_assoc]
  rw [List.take_left' hs16]
  rw [List.drop_left' hs16]
  rw [show CryptoUtils.ivLength = 12 from rfl]
  rw [List.take_left' hi12]
  rw [← List.append_assoc, List.drop_left' hsi]
  rw [cBytesOnly_bytesToC, cBytesOnly_bytesToC]

theorem decrypt_encrypt (pt : Plain) (password : String) (rng : Rng) :
    CryptoUtils.decrypt (CryptoUtils.encrypt pt password rng).1 password = Except.ok pt := by
  rw [encrypt_shape, decrypt_of_encrypt_parts _ _ _ _
    (show (CryptoUtils.generateSalt rng).1.length = 16 from getRandomValues_length 16 rng)
    (show (CryptoUtils.generateIV (CryptoUtils.generateSalt rng).2).1.length = 12 from
      getRandomValues_length 12 _)]
  simp [subtleEncrypt, subtleDecrypt]

theorem decrypt_encrypt_wrong (pt : Plain) (p1 p2 : String) (rng : Rng) (hne : p1 ≠ p2) :
    CryptoUtils.decrypt (CryptoUtils.encrypt pt p1 rng).1 p2 =
      Except.error CryptoError.decryptionFailed := by
  rw [encrypt_shape, decrypt_of_encrypt_parts _ _ _ _
    (show (CryptoUtils.generateSalt rng).1.length = 16 from getRandomValues_length 16 rng)
    (show (CryptoUtils.generateIV (CryptoUtils.generateSalt rng).2).1.length = 12 from
      getRandomValues_length 12 _)]
  have hk : CryptoUtils.deriveKey p1 (CryptoUtils.generateSalt rng).1 ≠
      CryptoUtils.deriveKey p2 (CryptoUtils.generateSalt rng).1 :=
    fun h => hne (deriveKey_inj p1 p2 _ h)
  simp only [subtleEncrypt, subtleDecrypt]
  rw [if_neg (by simp only [not_and]; intro h; exact absurd h hk)]

/-! ## Lemmas: storage keys and the device key -/

theorem key_ne (a b : String) (c d : Char) (ha : a.data.head? = some c)
    (hb : b.data.head? = some d) (hcd : c ≠ d) : a ≠ b := by
  intro h
  rw [h, hb] at ha
  exact hcd (Option.some.inj ha).symm

/-- The device secret available to later operations: the persistent
cookie when present, otherwise the in-memory fallback field. -/
def currentDeviceSecret (st : State) : Option String :=
  (st.cookies "device_enc_key").orElse (fun _ => st.memDeviceKey)

theorem getDeviceEncryptionKey_localStorage (st : State) (rng : Rng) :
    (UserProfileManager.getDeviceEncryptionKey st rng).2.1.localStorage = st.localStorage := by
  unfold UserProfileManager.getDeviceEncryptionKey
  cases h : UserProfileManager.getCookie st "device_enc_key" with
  | some k => rfl
  | none =>
    simp only []
    cases h2 : UserProfileManager.getCookie
        (UserProfileManager.setCookie st "device_enc_key" _ 3650) "device_enc_key" with
    | none => simp only [UserProfileManager.setCookie]; split <;> rfl
    | some k => simp only [UserProfileManager.setCookie]; split <;> rfl

theorem getDeviceEncryptionKey_sessionStorage (st : State) (rng : Rng) :
    (UserProfileManager.getDeviceEncryptionKey st rng).2.1.sessionStorage = st.sessionStorage := by
  unfold UserProfileManager.getDeviceEncryptionKey
  cases h : UserProfileManager.getCookie st "device_enc_key" with
  | some k => rfl
  | none =>
    simp only []
    cases h2 : UserProfileManager.getCookie
        (UserProfileManager.setCookie st "device_enc_key" _ 3650) "device_enc_key" with
    | none => simp only [UserProfileManager.setCookie]; split <;> rfl
    | some k => simp only [UserProfileManager.setCookie]; split <;> rfl

theorem getDeviceEncryptionKey_secret (st : State) (rng : Rng) :
    currentDeviceSecret (UserProfileManager.getDeviceEncryptionKey st rng).2.1 =
      some (UserProfileManager.getDeviceEncryptionKey st rng).1 := by
  unfold UserProfileManager.getDeviceEncryptionKey
  cases h : UserProfileManager.getCookie st "device_enc_key" with
  | some k =>
    simp only [currentDeviceSecret]
    rw [show st.cookies "device_enc_key" = some k from h]
    rfl
  | none =>
    simp only []
    cases h2 : UserProfileManager.getCookie
        (UserProfileManager.setCookie st "device_enc_key"
          (UserProfileManager.bytesToHex (getRandomValues 32 rng).1) 3650) "device_enc_key" with
    | none =>
      simp only [currentDeviceSecret]
      rw [show (UserProfileManager.setCookie st "device_enc_key"
        (UserProfileManager.bytesToHex (getRandomValues 32 rng).1) 3650).cookies
          "device_enc_key" = none from h2]
      rfl
    | some k =>
      have hk : k = UserProfileManager.bytesToHex (getRandomValues 32 rng).1 := by
        revert h2
        simp only [UserProfileManager.getCookie, UserProfileManager.setCookie]
        split
        · intro hc
          simp at hc
          exact hc.symm
        · rw [show st.cookies "device_enc_key" =
            UserProfileManager.getCookie st "device_enc_key" from rfl, h]
          intro hc
          exact absurd hc (by simp)
      simp only [currentDeviceSecret]
      rw [show (UserProfileManager.setCookie st "device_enc_key"
        (UserProfileManager.bytesToHex (getRandomValues 32 rng).1) 3650).cookies
          "device_enc_key" = some k from h2, hk]
      rfl

/-! ## Claim theorems -/

/-- C1: for every plaintext string (including the empty string) and
every password string, `decrypt(encrypt(plaintext, password), password)`
returns exactly the original plaintext. -/
theorem claim_C1_encrypt_decrypt_roundtrip (plaintext password : String) (rng : Rng) :
    CryptoUtils.decrypt (CryptoUtils.encrypt (Plain.str plaintext) password rng).1 password =
      Except.ok (Plain.str plaintext) :=
  decrypt_encrypt (Plain.str plaintext) password rng

/-- C2: for every plaintext and every pair of distinct passwords,
decrypting an envelope made under `password1` with `password2` fails
with `DecryptionFailed` (the tag does not verify); it never returns a
plaintext. -/
theorem claim_C2_wrong_password_fails (plaintext password1 password2 : String) (rng : Rng)
    (hne : password1 ≠ password2) :
    CryptoUtils.decrypt (CryptoUtils.encrypt (Plain.str plaintext) password1 rng).1 password2 =
      Except.error CryptoError.decryptionFailed :=
  decrypt_encrypt_wrong (Plain.str plaintext) password1 password2 rng hne

/-- Witness for C2 at a concrete plaintext, password pair and random
stream. -/
theorem claim_C2_wrong_password_fails_witness :
    ("alpha" : String) ≠ "bravo" ∧
    CryptoUtils.decrypt (CryptoUtils.encrypt (Plain.str "hi") "alpha" ⟨fun i => i, 0⟩).1 "bravo" =
      Except.error CryptoError.decryptionFailed :=
  ⟨by decide, claim_C2_wrong_password_fails "hi" "alpha" "bravo" ⟨fun i => i, 0⟩ (by decide)⟩

/-- C8: a second `encrypt` call reads the random stream strictly beyond
the 16+12 positions the first call consumed (salt and IV are drawn
fresh, never reused), and whenever the freshly drawn salts differ — as
ideal randomness guarantees — the two envelopes differ. -/
theorem claim_C8_envelope_freshness (plaintext password : String) (rng : Rng)
    (hfresh : (CryptoUtils.generateSalt rng).1 ≠
      (CryptoUtils.generateSalt (CryptoUtils.encrypt (Plain.str plaintext) password rng).2).1) :
    (CryptoUtils.encrypt (Plain.str plaintext) password rng).2.pos = rng.pos + 28 ∧
    (CryptoUtils.encrypt (Plain.str plaintext) password rng).1 ≠
      (CryptoUtils.encrypt (Plain.str plaintext) password
        (CryptoUtils.encrypt (Plain.str plaintext) password rng).2).1 := by
  constructor
  · show ((CryptoUtils.generateIV (CryptoUtils.generateSalt rng).2).2).pos = rng.pos + 28
    simp [CryptoUtils.generateIV, CryptoUtils.generateSalt, CryptoUtils.ivLength,
      getRandomValues]
  · intro h
    rw [encrypt_shape, encrypt_shape] at h
    have h16 := congrArg (List.take 16) h
    rw [List.append_assoc, List.append_assoc,
      List.take_left' (by rw [bytesToC_length]; exact getRandomValues_length 16 rng),
      List.take_left' (by rw [bytesToC_length]; exact getRandomValues_length 16 _)] at h16
    exact hfresh (bytesToC_inj _ _ h16)

/-- Witness for C8: with the identity random stream the two salts (and
hence the two envelopes) differ. -/
theorem claim_C8_envelope_freshness_witness :
    (CryptoUtils.generateSalt ⟨fun i => i, 0⟩).1 ≠
      (CryptoUtils.generateSalt
        (CryptoUtils.encrypt (Plain.str "data") "pw" ⟨fun i => i, 0⟩).2).1 ∧
    (CryptoUtils.encrypt (Plain.str "data") "pw" ⟨fun i => i, 0⟩).2.pos = 0 + 28 ∧
    (CryptoUtils.encrypt (Plain.str "data") "pw" ⟨fun i => i, 0⟩).1 ≠
      (CryptoUtils.encrypt (Plain.str "data") "pw"
        (CryptoUtils.encrypt (Plain.str "data") "pw" ⟨fun i => i, 0⟩).2).1 :=
  ⟨by decide, claim_C8_envelope_freshness "data" "pw" ⟨fun i => i, 0⟩ (by decide)⟩

/-- The device-key step performed inside `saveUserProfile`, after the
profile envelope write. -/
def saveDeviceKeyR (st : State) (username : String) (profile : Profile) (password : String)
    (rng : Rng) : String × State × Rng :=
  UserProfileManager.getDeviceEncryptionKey
    (CryptoUtils.setEncryptedLocalStorage st ("profile_" ++ username)
      (Plain.profile profile) password rng).1
    (CryptoUtils.setEncryptedLocalStorage st ("profile_" ++ username)
      (Plain.profile profile) password rng).2

theorem saveUserProfile_session (st : State) (username : String) (profile : Profile)
    (password : String) (now : Nat) (rng : Rng) :
    (UserProfileManager.saveUserProfile st username profile password now rng).1.localStorage
      "user_session" = some (StoredVal.session username now) := by
  simp [UserProfileManager.saveUserProfile, setLocal]

theorem saveUserProfile_password_enc (st : State) (username : String) (profile : Profile)
    (password : String) (now : Nat) (rng : Rng) :
    (UserProfileManager.saveUserProfile st username profile password now rng).1.localStorage
      "user_password_enc" = some (StoredVal.env (CryptoUtils.encrypt (Plain.str password)
        (saveDeviceKeyR st username profile password rng).1
        (saveDeviceKeyR st username profile password rng).2.2).1) := by
  simp [UserProfileManager.saveUserProfile, setLocal, saveDeviceKeyR]

theorem saveUserProfile_secret (st : State) (username : String) (profile : Profile)
    (password : String) (now : Nat) (rng : Rng) :
    currentDeviceSecret
        (UserProfileManager.saveUserProfile st username profile password now rng).1 =
      some (saveDeviceKeyR st username profile password rng).1 := by
  exact getDeviceEncryptionKey_secret _ _

theorem saveUserProfile_profile_key (st : State) (username : String) (profile : Profile)
    (password : String) (now : Nat) (rng : Rng) :
    (UserProfileManager.saveUserProfile st username profile password now rng).1.localStorage
      ("profile_" ++ username) =
      some (StoredVal.env (CryptoUtils.encrypt (Plain.profile profile) password rng).1) := by
  have hne1 : ("profile_" ++ username) ≠ "user_session" :=
    key_ne _ _ 'p' 'u' (by rw [String.data_append]; rfl) rfl (by decide)
  have hne2 : ("profile_" ++ username) ≠ "user_password_enc" :=
    key_ne _ _ 'p' 'u' (by rw [String.data_append]; rfl) rfl (by decide)
  simp only [UserProfileManager.saveUserProfile, setLocal]
  rw [if_neg hne1, if_neg hne2]
  have hloc := getDeviceEncryptionKey_localStorage
    (CryptoUtils.setEncryptedLocalStorage st ("profile_" ++ username)
      (Plain.profile profile) password rng).1
    (CryptoUtils.setEncryptedLocalStorage st ("profile_" ++ username)
      (Plain.profile profile) password rng).2
  rw [hloc]
  simp [CryptoUtils.setEncryptedLocalStorage, setLocal]

/-- C10: every `saveUserProfile` call, from whichever flow, rewrites the
`user_session` marker to the given username and the current time,
rewrites `user_password_enc` to the given password wrapped under the
device secret in force after the call, and writes the profile envelope
decryptable with the given password. -/
theorem claim_C10_save_rebinds_identity (st : State) (username : String) (profile : Profile)
    (password : String) (now : Nat) (rng : Rng) :
    ((UserProfileManager.saveUserProfile st username profile password now rng).1.localStorage
        "user_session" = some (StoredVal.session username now)) ∧
    (∃ dk e,
      currentDeviceSecret
          (UserProfileManager.saveUserProfile st username profile password now rng).1 = some dk ∧
      (UserProfileManager.saveUserProfile st username profile password now rng).1.localStorage
          "user_password_enc" = some (StoredVal.env e) ∧
      CryptoUtils.decrypt e dk = Except.ok (Plain.str password)) ∧
    (∃ e,
      (UserProfileManager.saveUserProfile st username profile password now rng).1.localStorage
          ("profile_" ++ username) = some (StoredVal.env e) ∧
      CryptoUtils.decrypt e password = Except.ok (Plain.profile profile)) := by
  refine ⟨saveUserProfile_session st username profile password now rng,
    ⟨(saveDeviceKeyR st username profile password rng).1,
     (CryptoUtils.encrypt (Plain.str password)
        (saveDeviceKeyR st username profile password rng).1
        (saveDeviceKeyR st username profile password rng).2.2).1,
     saveUserProfile_secret st username profile password now rng,
     saveUserProfile_password_enc st username profile password now rng,
     decrypt_encrypt _ _ _⟩,
    ⟨(CryptoUtils.encrypt (Plain.profile profile) password rng).1,
     saveUserProfile_profile_key st username profile password now rng,
     decrypt_encrypt _ _ _⟩⟩

/-! ## Concrete fixtures used by counterexamples and witnesses -/

instance {ε α : Type} [DecidableEq ε] [DecidableEq α] : DecidableEq (Except ε α) := fun x y =>
  match x, y with
  | Except.ok a, Except.ok b =>
    if h : a = b then isTrue (by rw [h]) else isFalse (fun e => h (Except.ok.inj e))
  | Except.error a, Except.error b =>
    if h : a = b then isTrue (by rw [h]) else isFalse (fun e => h (Except.error.inj e))
  | Except.ok _, Except.error _ => isFalse (fun e => Except.noConfusion e)
  | Except.error _, Except.ok _ => isFalse (fun e => Except.noConfusion e)

/-- A concrete random stream. -/
def rngW : Rng := ⟨fun i => i, 0⟩

/-- A concrete profile document. -/
def profileFrank : Profile := { defaultProfile with username := "frank" }

/-- A concrete envelope for `profileFrank` under password `rightpass99`. -/
def envFrank : Envelope := (CryptoUtils.encrypt (Plain.profile profileFrank) "rightpass99" rngW).1

/-- A store holding only the `profile_frank` envelope. -/
def stEnvOnly : State :=
  { State.empty with
    localStorage := fun q => if q = "profile_frank" then some (StoredVal.env envFrank) else none }

/-- C4 counterexample: with the `profile_frank` envelope present and a
wrong password, the decryption failure is real (`decrypt` fails with
`DecryptionFailed`), yet `loadUserProfile` swallows it and returns
`null` — the same result as when no envelope exists at all — instead of
propagating the error. -/
theorem claim_C4_counterexample :
    CryptoUtils.decrypt envFrank "wrongpass" = Except.error CryptoError.decryptionFailed ∧
    UserProfileManager.loadUserProfile stEnvOnly "frank" "wrongpass" = none ∧
    UserProfileManager.loadUserProfile State.empty "frank" "wrongpass" = none := by
  refine ⟨?_, ?_, ?_⟩ <;> decide

/-- C4 (amended): `loadUserProfile` returns `null` when no envelope
exists under the username's storage key, and it also returns `null`
(catching the `DecryptionFailed` error inside
`getEncryptedLocalStorage` rather than propagating it) when an envelope
exists but the password does not decrypt it; the login flow
distinguishes the two cases with `checkUserExists`, not by the error. -/
theorem claim_C4_load_null_amended (st : State) (username password : String) :
    (st.localStorage ("profile_" ++ username) = none →
      UserProfileManager.loadUserProfile st username password = none) ∧
    (∀ e, st.localStorage ("profile_" ++ username) = some (StoredVal.env e) →
      CryptoUtils.decrypt e password = Except.error CryptoError.decryptionFailed →
      UserProfileManager.loadUserProfile st username password = none) := by
  constructor
  · intro h
    simp [UserProfileManager.loadUserProfile, CryptoUtils.getEncryptedLocalStorage, h]
  · intro e he hd
    simp [UserProfileManager.loadUserProfile, CryptoUtils.getEncryptedLocalStorage, he, hd]

/-- Witness for the amended C4 at concrete stores. -/
theorem claim_C4_load_null_amended_witness :
    UserProfileManager.loadUserProfile State.empty "frank" "pw" = none ∧
    UserProfileManager.loadUserProfile stEnvOnly "frank" "wrongpass" = none :=
  ⟨(claim_C4_load_null_amended State.empty "frank" "pw").1 rfl,
   (claim_C4_load_null_amended stEnvOnly "frank" "wrongpass").2 envFrank (by decide) (by decide)⟩

/-! ## Lemmas: the login success branch clears the attempt counter -/

theorem removeSession_localStorage (s : State) (k : String) :
    (removeSession s k).localStorage = s.localStorage := rfl

theorem deleteCookieJar_localStorage (s : State) (k : String) :
    (deleteCookieJar s k).localStorage = s.localStorage := by
  unfold deleteCookieJar
  split <;> rfl

theorem removeLocal_localStorage_ne (s : State) (k q : String) (h : q ≠ k) :
    (removeLocal s k).localStorage q = s.localStorage q := by
  simp [removeLocal, h]

theorem attempts_key_ne_session (u : String) : ("login_attempts_" ++ u) ≠ "user_session" :=
  key_ne _ _ 'l' 'u' (by rw [String.data_append]; rfl) rfl (by decide)

theorem attempts_key_ne_password_enc (u : String) :
    ("login_attempts_" ++ u) ≠ "user_password_enc" :=
  key_ne _ _ 'l' 'u' (by rw [String.data_append]; rfl) rfl (by decide)

theorem saveLoginCredentials_attempts_key (s : State) (u ph pw : String) (now : Nat) (rng : Rng) :
    (UserProfileManager.saveLoginCredentials s u ph pw now rng).1.localStorage
      ("login_attempts_" ++ u) = s.localStorage ("login_attempts_" ++ u) := by
  simp only [UserProfileManager.saveLoginCredentials, setLocal]
  rw [if_neg (attempts_key_ne_session u), if_neg (attempts_key_ne_password_enc u),
    getDeviceEncryptionKey_localStorage]

theorem cleanupOldStorage_attempts_key (s : State) (u : String) :
    (UserProfileManager.cleanupOldStorage s u).localStorage ("login_attempts_" ++ u) =
      s.localStorage ("login_attempts_" ++ u) := by
  have h1 : ("login_attempts_" ++ u) ≠ "nitrogenProfile_" ++ u :=
    key_ne _ _ 'l' 'n' (by rw [String.data_append]; rfl)
      (by rw [String.data_append]; rfl) (by decide)
  have h2 : ("login_attempts_" ++ u) ≠ "profile_" ++ u ++ "_backup" :=
    key_ne _ _ 'l' 'p' (by rw [String.data_append]; rfl)
      (by rw [String.data_append, String.data_append]; rfl) (by decide)
  have h3 : ("login_attempts_" ++ u) ≠ "sync_" ++ u :=
    key_ne _ _ 'l' 's' (by rw [String.data_append]; rfl)
      (by rw [String.data_append]; rfl) (by decide)
  have h4 : ("login_attempts_" ++ u) ≠ "user_login" :=
    key_ne _ _ 'l' 'u' (by rw [String.data_append]; rfl) rfl (by decide)
  have layer : ∀ (s : State) (k q : String), q ≠ k →
      (deleteCookieJar (removeSession (removeLocal s k) k) k).localStorage q =
        s.localStorage q := by
    intro s k q h
    rw [deleteCookieJar_localStorage, removeSession_localStorage,
      removeLocal_localStorage_ne _ _ _ h]
  simp only [UserProfileManager.cleanupOldStorage, List.foldl_cons, List.foldl_nil]
  rw [layer _ _ _ h4, layer _ _ _ h3, layer _ _ _ h2, layer _ _ _ h1]

theorem getLoginAttempts_clear (s : State) (u : String) :
    UserProfileManager.getLoginAttempts (UserProfileManager.clearLoginAttempts s u) u =
      ⟨0, 0⟩ := by
  simp [UserProfileManager.getLoginAttempts, UserProfileManager.clearLoginAttempts, removeLocal]

theorem success_branch_attempts (st : State) (u ph pw : String) (now : Nat) (rng : Rng) :
    UserProfileManager.getLoginAttempts
      (UserProfileManager.saveLoginCredentials
        (UserProfileManager.cleanupOldStorage (UserProfileManager.clearLoginAttempts st u) u)
        u ph pw now rng).1 u = ⟨0, 0⟩ := by
  have hlook : (UserProfileManager.saveLoginCredentials
      (UserProfileManager.cleanupOldStorage (UserProfileManager.clearLoginAttempts st u) u)
      u ph pw now rng).1.localStorage ("login_attempts_" ++ u) = none := by
    rw [saveLoginCredentials_attempts_key, cleanupOldStorage_attempts_key]
    simp [UserProfileManager.clearLoginAttempts, removeLocal]
  simp [UserProfileManager.getLoginAttempts, hlook]

theorem loginAfterImport_success_clears (st : State) (u pw : String) (now : Nat) (rng : Rng)
    (h : (UserProfileManager.loginAfterImport st u pw now rng).1.success = true) :
    UserProfileManager.getLoginAttempts
      (UserProfileManager.loginAfterImport st u pw now rng).2.1 u = ⟨0, 0⟩ := by
  simp only [UserProfileManager.loginAfterImport] at h ⊢
  by_cases hc1 : (UserProfileManager.getLoginAttempts st u).count ≥ 5 ∧
      (UserProfileManager.getLoginAttempts st u).lockoutUntil - now > 0
  · rw [if_pos hc1] at h
    simp at h
  · rw [if_neg hc1] at h ⊢
    by_cases hc2 : u = "" ∨ pw = ""
    · rw [if_pos hc2] at h
      simp at h
    · rw [if_neg hc2] at h ⊢
      generalize hst1 : (if (UserProfileManager.getLoginAttempts st u).count ≥ 5 then
        UserProfileManager.clearLoginAttempts st u else st) = st1 at h ⊢
      by_cases hex : UserProfileManager.checkUserExists st1 u = true
      · rw [if_neg (not_not_intro hex)] at h ⊢
        cases hload : UserProfileManager.loadUserProfile st1 u pw with
        | none =>
          simp only [hload] at h
          simp at h
        | some p =>
          simp only [hload] at h ⊢
          exact success_branch_attempts st1 u
            ((CryptoUtils.hashPassword pw none rng).1.1 ++ ":" ++
              (CryptoUtils.hashPassword pw none rng).1.2)
            pw now (CryptoUtils.hashPassword pw none rng).2
      · rw [if_pos (show ¬ UserProfileManager.checkUserExists st1 u = true from hex)] at h
        simp at h

/-- C6: whenever `loginUser` succeeds, the failed-attempt counter of
that username reads zero afterwards. -/
theorem claim_C6_success_clears_attempts (st : State) (username password : String)
    (rememberMe : Bool) (now : Nat) (rng : Rng)
    (h : (UserProfileManager.loginUser st username password rememberMe now rng).1.success
      = true) :
    (UserProfileManager.getLoginAttempts
      (UserProfileManager.loginUser st username password rememberMe now rng).2.1
      username).count = 0 := by
  simp only [UserProfileManager.loginUser] at h ⊢
  rw [loginAfterImport_success_clears _ _ _ _ _ h]

/-! ## Concrete register/login run -/

/-- Registration of `alice` with password `correctpass1` on an empty
browser state. -/
def regW : UserProfileManager.RegResult × State × Rng :=
  UserProfileManager.registerUser State.empty "alice" "correctpass1" "alice@mail.co" "Alice"
    false 1000 rngW

/-- First wrong-password login attempt after `regW`. -/
def loginW1 : UserProfileManager.LoginResult × State × Rng :=
  UserProfileManager.loginUser regW.2.1 "alice" "wrongpass999" true 2000 regW.2.2

/-- Second wrong-password login attempt. -/
def loginW2 : UserProfileManager.LoginResult × State × Rng :=
  UserProfileManager.loginUser loginW1.2.1 "alice" "wrongpass999" true 2000 loginW1.2.2

/-- Third wrong-password login attempt. -/
def loginW3 : UserProfileManager.LoginResult × State × Rng :=
  UserProfileManager.loginUser loginW2.2.1 "alice" "wrongpass999" true 2000 loginW2.2.2

/-- Fourth wrong-password login attempt. -/
def loginW4 : UserProfileManager.LoginResult × State × Rng :=
  UserProfileManager.loginUser loginW3.2.1 "alice" "wrongpass999" true 2000 loginW3.2.2

/-- Fifth wrong-password login attempt. -/
def loginW5 : UserProfileManager.LoginResult × State × Rng :=
  UserProfileManager.loginUser loginW4.2.1 "alice" "wrongpass999" true 2000 loginW4.2.2

/-- Sanity: registration succeeded and the first four failures count up
without a lockout. -/
theorem regW_success : regW.1.success = true ∧
    UserProfileManager.getLoginAttempts loginW4.2.1 "alice" = ⟨4, 0⟩ := by decide

/-- Witness for C6 at a concrete successful login. -/
theorem claim_C6_success_clears_attempts_witness :
    (UserProfileManager.getLoginAttempts
      (UserProfileManager.loginUser regW.2.1 "alice" "correctpass1" true 2000 regW.2.2).2.1
      "alice").count = 0 :=
  claim_C6_success_clears_attempts regW.2.1 "alice" "correctpass1" true 2000 regW.2.2 (by decide)

/-! ## Rate limiting (C5) -/

theorem recordFailedAttempt_spec (st : State) (u : String) (now : Nat)
    (h : (UserProfileManager.getLoginAttempts st u).count + 1 ≥ 5) :
    UserProfileManager.getLoginAttempts (UserProfileManager.recordFailedAttempt st u now) u =
      ⟨(UserProfileManager.getLoginAttempts st u).count + 1,
       now + ((UserProfileManager.getLoginAttempts st u).count + 1 - 4) * 5 * 60 * 1000⟩ := by
  simp only [UserProfileManager.recordFailedAttempt, setLocal]
  rw [if_pos h]
  simp [UserProfileManager.getLoginAttempts]

theorem loginPendingImport_none (st : State) (u pw : String) (now : Nat) (rng : Rng)
    (h : st.sessionStorage "pendingImport_enc" = none) :
    UserProfileManager.loginPendingImport st u pw now rng = (st, rng) := by
  simp only [UserProfileManager.loginPendingImport, h]

/-- C5 counterexample: after exactly five consecutive wrong-password
logins for `alice`, the fifth attempt returns `InvalidPassword` — not
`RateLimited` as the claim states — while recording a 5-minute lockout;
`RateLimited` first appears on the next attempt, even with the correct
password. -/
theorem claim_C5_fifth_failure_counterexample :
    loginW5.1.error = some UserProfileManager.LoginError.invalidPassword ∧
    UserProfileManager.getLoginAttempts loginW5.2.1 "alice" = ⟨5, 302000⟩ ∧
    (UserProfileManager.loginUser loginW5.2.1 "alice" "correctpass1" true 2500
      loginW5.2.2).1.error = some (UserProfileManager.LoginError.rateLimited 5) := by
  refine ⟨?_, ?_, ?_⟩ <;> decide

/-- C5 (amended): (1) from the 5th consecutive recorded failure onward
the recorded lockout is `now + (count - 4) * 5` minutes; (2) the 5th
consecutive wrong-password login returns `InvalidPassword` while
recording a lockout of exactly 5 minutes (`RateLimited` does not appear
on the 5th failure itself); (3) any login attempted while
`now < lockoutUntil` with at least five recorded failures fails with
`RateLimited(ceil(timeLeft/60000))`, regardless of the password, leaves
the state and the random stream untouched, and performs no
decrypt/credential check. -/
theorem claim_C5_rate_limit_amended :
    (∀ (st : State) (u : String) (now : Nat),
      (UserProfileManager.getLoginAttempts st u).count + 1 ≥ 5 →
      UserProfileManager.getLoginAttempts (UserProfileManager.recordFailedAttempt st u now) u =
        ⟨(UserProfileManager.getLoginAttempts st u).count + 1,
         now + ((UserProfileManager.getLoginAttempts st u).count + 1 - 4) * 5 * 60 * 1000⟩) ∧
    (∀ (st : State) (u pw : String) (l now : Nat) (r : Bool) (rng : Rng),
      st.sessionStorage "pendingImport_enc" = none →
      UserProfileManager.getLoginAttempts st u = ⟨4, l⟩ →
      ¬ (u = "" ∨ pw = "") →
      UserProfileManager.checkUserExists st u = true →
      UserProfileManager.loadUserProfile st u pw = none →
      (UserProfileManager.loginUser st u pw r now rng).1.error =
        some UserProfileManager.LoginError.invalidPassword ∧
      UserProfileManager.getLoginAttempts
        (UserProfileManager.loginUser st u pw r now rng).2.1 u = ⟨5, now + 5 * 60 * 1000⟩) ∧
    (∀ (st : State) (u pw : String) (now : Nat) (r : Bool) (rng : Rng),
      st.sessionStorage "pendingImport_enc" = none →
      (UserProfileManager.getLoginAttempts st u).count ≥ 5 →
      now < (UserProfileManager.getLoginAttempts st u).lockoutUntil →
      UserProfileManager.loginUser st u pw r now rng =
        (⟨false, none, some (UserProfileManager.LoginError.rateLimited
          (((UserProfileManager.getLoginAttempts st u).lockoutUntil - now + 59999) / 60000))⟩,
         st, rng)) := by
  refine ⟨fun st u now h => recordFailedAttempt_spec st u now h, ?_, ?_⟩
  · intro st u pw l now r rng hp hA hval hex hload
    have hloginEq : UserProfileManager.loginUser st u pw r now rng =
        UserProfileManager.loginAfterImport st u pw now rng := by
      simp only [UserProfileManager.loginUser, loginPendingImport_none st u pw now rng hp]
    rw [hloginEq]
    simp only [UserProfileManager.loginAfterImport, hA]
    rw [if_neg (by simp)]
    rw [if_neg (by norm_num : ¬ ((⟨4, l⟩ : UserProfileManager.Attempts).count ≥ 5))]
    rw [if_neg hval, if_neg (not_not_intro hex)]
    simp only [hload]
    constructor
    · trivial
    · rw [recordFailedAttempt_spec st u now (by simp [hA]), hA]
      simp [UserProfileManager.Attempts.mk.injEq]
  · intro st u pw now r rng hp h5 hnow
    have hloginEq : UserProfileManager.loginUser st u pw r now rng =
        UserProfileManager.loginAfterImport st u pw now rng := by
      simp only [UserProfileManager.loginUser, loginPendingImport_none st u pw now rng hp]
    rw [hloginEq]
    simp only [UserProfileManager.loginAfterImport]
    rw [if_pos ⟨h5, by omega⟩]

/-- Witness for the amended C5, instantiating all three parts on the
concrete five-failure run. -/
theorem claim_C5_rate_limit_amended_witness :
    UserProfileManager.getLoginAttempts
      (UserProfileManager.recordFailedAttempt loginW4.2.1 "alice" 2000) "alice" = ⟨5, 302000⟩ ∧
    ((UserProfileManager.loginUser loginW4.2.1 "alice" "wrongpass999" true 2000
        loginW4.2.2).1.error = some UserProfileManager.LoginError.invalidPassword ∧
      UserProfileManager.getLoginAttempts
        (UserProfileManager.loginUser loginW4.2.1 "alice" "wrongpass999" true 2000
          loginW4.2.2).2.1 "alice" = ⟨5, 302000⟩) ∧
    UserProfileManager.loginUser loginW5.2.1 "alice" "correctpass1" true 2500 loginW5.2.2 =
      (⟨false, none, some (UserProfileManager.LoginError.rateLimited 5)⟩, loginW5.2.1,
        loginW5.2.2) := by
  refine ⟨?_, ?_, ?_⟩
  · rw [claim_C5_rate_limit_amended.1 loginW4.2.1 "alice" 2000 (by decide)]
    decide
  · have h := claim_C5_rate_limit_amended.2.1 loginW4.2.1 "alice" "wrongpass999" 0 2000 true
      loginW4.2.2 (by decide) (by decide) (by decide) (by decide) (by decide)
    exact ⟨h.1, h.2.trans (by decide)⟩
  · have h := claim_C5_rate_limit_amended.2.2 loginW5.2.1 "alice" "correctpass1" 2500 true
      loginW5.2.2 (by decide) (by decide) (by decide)
    rw [h]
    rw [show ((UserProfileManager.getLoginAttempts loginW5.2.1 "alice").lockoutUntil - 2500
      + 59999) / 60000 = 5 by decide]

/-! ## Registration on an existing username (C3) and the device-secret
fallback (C9) -/

/-- C3: evaluating `registerUser` at a taken username with
`forceOverwrite = false`.  With the correct password the trial decrypt
succeeds, but the `UsernameTaken` throw is swallowed by the enclosing
`catch` and rewritten to `USERNAME_CORRUPTED`; with a wrong password
the trial load returns `null` instead of throwing, so registration
proceeds and silently replaces the stored envelope rather than failing
with `UsernameCorrupted`. -/
theorem claim_C3_register_existing_eval :
    (UserProfileManager.registerUser regW.2.1 "alice" "correctpass1" "alice@mail.co" "Alice"
      false 5000 regW.2.2).1 =
      ⟨false, none, some UserProfileManager.RegError.usernameCorrupted⟩ ∧
    (UserProfileManager.registerUser regW.2.1 "alice" "differentpass9" "alice@mail.co" "Alice"
      false 5000 regW.2.2).1.success = true ∧
    (UserProfileManager.registerUser regW.2.1 "alice" "differentpass9" "alice@mail.co" "Alice"
      false 5000 regW.2.2).2.1.localStorage "profile_alice" ≠
      regW.2.1.localStorage "profile_alice" := by
  refine ⟨?_, ?_, ?_⟩ <;> decide

/-- A browser state whose cookie writes are rejected. -/
def stNoCookies : State := { State.empty with cookiesEnabled := false }

/-- C9: when the cookie write is rejected, `getDeviceEncryptionKey`
stores the fallback secret in `this._deviceKey` but never reads that
field again, so a second call in the same session generates and returns
a different secret; the failure still does not block registration. -/
theorem claim_C9_memory_fallback_eval :
    ((UserProfileManager.getDeviceEncryptionKey stNoCookies rngW).2.1.memDeviceKey =
      some (UserProfileManager.getDeviceEncryptionKey stNoCookies rngW).1) ∧
    (UserProfileManager.getDeviceEncryptionKey stNoCookies rngW).1 ≠
      (UserProfileManager.getDeviceEncryptionKey
        (UserProfileManager.getDeviceEncryptionKey stNoCookies rngW).2.1
        (UserProfileManager.getDeviceEncryptionKey stNoCookies rngW).2.2).1 ∧
    (UserProfileManager.registerUser stNoCookies "erin1" "longpassword1" "erin@mail.co" "Erin"
      false 0 rngW).1.success = true := by
  refine ⟨?_, ?_, ?_⟩ <;> decide

/-! ## Password hashing and verification (C7) -/

theorem verify_hash_record (pw other : String) (saltB : Bytes) (hs : ∀ x ∈ saltB, x < 256) :
    CryptoUtils.verifyPassword pw
      (CryptoUtils.arrayBufferToBase64 (pbkdf2Bits pw saltB 600000) ++ ":" ++
       CryptoUtils.arrayBufferToBase64 saltB) = true ∧
    (other ≠ pw →
      CryptoUtils.verifyPassword other
        (CryptoUtils.arrayBufferToBase64 (pbkdf2Bits pw saltB 600000) ++ ":" ++
         CryptoUtils.arrayBufferToBase64 saltB) = false) := by
  have hsplit : splitChar ':'
      (b64EncodeBytes (pbkdf2Bits pw saltB 600000) ++ ':' :: b64EncodeBytes saltB) =
      [b64EncodeBytes (pbkdf2Bits pw saltB 600000), b64EncodeBytes saltB] := by
    rw [splitChar_append ':' _ _ (b64EncodeBytes_no_colon _),
        splitChar_of_not_mem ':' _ (b64EncodeBytes_no_colon _)]
  have hdecode : b64DecodeChars (b64EncodeBytes saltB) = some saltB := b64_roundtrip saltB hs
  have hdata2 : ((String.mk (b64EncodeBytes (pbkdf2Bits pw saltB 600000)) : String) ++ ":" ++
      String.mk (b64EncodeBytes saltB)).data =
      b64EncodeBytes (pbkdf2Bits pw saltB 600000) ++ ':' :: b64EncodeBytes saltB := by
    simp [String.data_append]
  have hb2a : CryptoUtils.base64ToArrayBuffer (String.mk (b64EncodeBytes saltB)) =
      some saltB := hdecode
  constructor
  · simp only [CryptoUtils.verifyPassword, CryptoUtils.arrayBufferToBase64]
    rw [hdata2, hsplit]
    simp [hb2a, CryptoUtils.hashPassword, CryptoUtils.arrayBufferToBase64]
  · intro hother
    simp only [CryptoUtils.verifyPassword, CryptoUtils.arrayBufferToBase64]
    rw [hdata2, hsplit]
    simp only [hb2a, CryptoUtils.hashPassword]
    apply decide_eq_false
    intro heq
    have h1 : b64EncodeBytes (pbkdf2Bits other saltB 600000) =
        b64EncodeBytes (pbkdf2Bits pw saltB 600000) := congrArg String.data heq
    have h2 := b64EncodeBytes_inj _ _ (pbkdf2Bits_lt other saltB 600000 hs)
      (pbkdf2Bits_lt pw saltB 600000 hs) h1
    exact hother (pbkdf2Bits_inj other pw saltB 600000 h2)

/-- C7: `verifyPassword(pw, hash ++ ":" ++ salt)` on the record
produced by one `hashPassword(pw)` call returns `true`, and verifying
any other password against that record returns `false`. -/
theorem claim_C7_verify_password (pw other : String) (rng : Rng) (hne : other ≠ pw) :
    CryptoUtils.verifyPassword pw
      ((CryptoUtils.hashPassword pw none rng).1.1 ++ ":" ++
       (CryptoUtils.hashPassword pw none rng).1.2) = true ∧
    CryptoUtils.verifyPassword other
      ((CryptoUtils.hashPassword pw none rng).1.1 ++ ":" ++
       (CryptoUtils.hashPassword pw none rng).1.2) = false := by
  have hs : ∀ x ∈ (CryptoUtils.generateSalt rng).1, x < 256 := getRandomValues_lt 16 rng
  have hpair1 : (CryptoUtils.hashPassword pw none rng).1.1 =
      CryptoUtils.arrayBufferToBase64
        (pbkdf2Bits pw (CryptoUtils.generateSalt rng).1 600000) := rfl
  have hpair2 : (CryptoUtils.hashPassword pw none rng).1.2 =
      CryptoUtils.arrayBufferToBase64 (CryptoUtils.generateSalt rng).1 := rfl
  rw [hpair1, hpair2]
  exact ⟨(verify_hash_record pw other _ hs).1, (verify_hash_record pw other _ hs).2 hne⟩

/-- Witness for C7 at concrete passwords and a concrete random
stream. -/
theorem claim_C7_verify_password_witness :
    ("b" : String) ≠ "a" ∧
    (CryptoUtils.verifyPassword "a"
      ((CryptoUtils.hashPassword "a" none rngW).1.1 ++ ":" ++
       (CryptoUtils.hashPassword "a" none rngW).1.2) = true ∧
     CryptoUtils.verifyPassword "b"
      ((CryptoUtils.hashPassword "a" none rngW).1.1 ++ ":" ++
       (CryptoUtils.hashPassword "a" none rngW).1.2) = false) :=
  ⟨by decide, claim_C7_verify_password "a" "b" rngW (by decide)⟩

end Nitrogen
